import Mathlib

/-!
Verification development for the GLADyS salience-evaluation fast path
(Rust crate `gladys_memory`: `lib.rs`, `server.rs`, `client.rs`).

Shallow embedding conventions:
* Rust `f32` values are modelled as exact rationals (`ℚ`).  `f32::sqrt` is an
  external intrinsic; it is abstracted as an explicit function argument
  `fsqrt : ℚ → ℚ` wherever `cosine_similarity` is involved, and instantiated
  with `ratSqrt` (exact on perfect squares, where IEEE-754 sqrt is also exact)
  in concrete evaluations.
* `uuid::Uuid` (external crate) is modelled as a natural number; its string
  rendering is decimal and parsing is `String.toNat?` (parsing fails exactly
  on malformed strings, modelling `Uuid::parse_str` failure).
* `serde_json::Value` is modelled by the inductive `Json` below;
  `serde_json::from_str` (external crate) is abstracted as a function argument
  `jp : String → Option Json` (`none` = parse error).
* `HashMap<Uuid, CachedHeuristic>` is modelled as a list of heuristics; the
  list order stands for the unspecified iteration order of the hash map, and
  theorems quantify over it.
* Stateful methods take the cache and the current wall-clock time
  (`current_time_ms`) as explicit arguments and return the updated cache;
  the counter/touch side effects of `evaluate_salience` are reified in a
  `Bookkeeping` record.
-/

/-- Model of `serde_json::Value`. -/
inductive Json where
  | null : Json
  | bool (b : Bool) : Json
  | num (q : ℚ) : Json
  | str (s : String) : Json
  | arr (xs : List Json) : Json
  | obj (fields : List (String × Json)) : Json

/-- Model of `serde_json::Value::get(key)`: object member lookup,
`None` on non-objects. -/
def Json.get (j : Json) (k : String) : Option Json :=
  match j with
  | .obj fields => (fields.find? (fun p => p.1 = k)).map (fun p => p.2)
  | _ => none

/-- Model of `serde_json::Value::as_f64`: numbers convert, everything else is
`None`. -/
def Json.as_f64 (j : Json) : Option ℚ :=
  match j with
  | .num q => some q
  | _ => none

/-- Model of `serde_json::Value::as_str`. -/
def Json.as_str (j : Json) : Option String :=
  match j with
  | .str s => some s
  | _ => none

/-- The nine-field salience vector (proto `gladys.types.SalienceVector`),
fields modelled as exact rationals. -/
structure SalienceVector where
  threat : ℚ
  opportunity : ℚ
  humor : ℚ
  novelty : ℚ
  goal_relevance : ℚ
  social : ℚ
  emotional : ℚ
  actionability : ℚ
  habituation : ℚ
deriving DecidableEq

/-- Shallow embedding of `SalienceService::apply_salience_boost`
(`server.rs` lines 283–308): eight sequential `if let Some(v) =
boost.get(name).and_then(|v| v.as_f64())` blocks, each replacing the field by
`max(current, v)`.  The source contains no block for `habituation`. -/
def apply_salience_boost (s : SalienceVector) (boost : Json) : SalienceVector :=
  let s := match (boost.get "threat").bind Json.as_f64 with
    | some v => { s with threat := max s.threat v }
    | none => s
  let s := match (boost.get "opportunity").bind Json.as_f64 with
    | some v => { s with opportunity := max s.opportunity v }
    | none => s
  let s := match (boost.get "humor").bind Json.as_f64 with
    | some v => { s with humor := max s.humor v }
    | none => s
  let s := match (boost.get "novelty").bind Json.as_f64 with
    | some v => { s with novelty := max s.novelty v }
    | none => s
  let s := match (boost.get "goal_relevance").bind Json.as_f64 with
    | some v => { s with goal_relevance := max s.goal_relevance v }
    | none => s
  let s := match (boost.get "social").bind Json.as_f64 with
    | some v => { s with social := max s.social v }
    | none => s
  let s := match (boost.get "emotional").bind Json.as_f64 with
    | some v => { s with emotional := max s.emotional v }
    | none => s
  let s := match (boost.get "actionability").bind Json.as_f64 with
    | some v => { s with actionability := max s.actionability v }
    | none => s
  s

/-- The numeric value the boost object carries under `name`, if any:
`boost.get(name).and_then(as_f64)`. -/
def boostVal (boost : Json) (name : String) : Option ℚ :=
  (boost.get name).bind Json.as_f64

/-- Merge rule the spec states for one field: `max(current, boost)` when the
boost carries a numeric value under the field's name, unchanged otherwise. -/
def mergeField (cur : ℚ) (boost : Json) (name : String) : ℚ :=
  match boostVal boost name with
  | some v => max cur v
  | none => cur

/-- UUIDs (external `uuid` crate) modelled as naturals. -/
abbrev Uuid := ℕ

/-- Modelled from the spec: `id` is a "128-bit UUID" rendered as a string
(`Uuid::to_string`); we render the abstract id in decimal. -/
def uuid_to_string (id : Uuid) : String := toString id

/-- Modelled from the spec: `Uuid::parse_str` accepts well-formed UUID strings
and fails on malformed ones; in the decimal model, parsing reads a non-empty
all-digit string and fails exactly on the rest (on malformed input). -/
def parse_uuid (s : String) : Option Uuid :=
  if s.data ≠ [] ∧ s.data.all (fun c => c.isDigit) then
    some (s.data.foldl (fun n c => 10 * n + (c.toNat - 48)) 0)
  else none

/-- A concrete square-root function on ℚ used to instantiate the abstract
`fsqrt` in closed evaluations.  It is exact on perfect squares (such as 0, 1
and 4), exactly where IEEE-754 `f32::sqrt` is also exact. -/
def ratSqrt (q : ℚ) : ℚ := (Nat.sqrt q.num.toNat : ℚ) / (Nat.sqrt q.den : ℚ)

/-- `a.iter().zip(b.iter()).map(|(x, y)| x * y).sum()` from
`cosine_similarity` (`lib.rs` line 366). -/
def dotList (a b : List ℚ) : ℚ := ((a.zip b).map (fun p => p.1 * p.2)).foldl (· + ·) 0

/-- `v.iter().map(|x| x * x).sum::<f32>()` from `cosine_similarity`
(`lib.rs` lines 367–368), before the square root. -/
def sumSquares (a : List ℚ) : ℚ := (a.map (fun x => x * x)).foldl (· + ·) 0

/-- Shallow embedding of `cosine_similarity` (`lib.rs` lines 361–375).
`fsqrt` abstracts the external `f32::sqrt` intrinsic. -/
def cosine_similarity (fsqrt : ℚ → ℚ) (a b : List ℚ) : ℚ :=
  if a.length ≠ b.length ∨ a.isEmpty then 0
  else
    let dot := dotList a b
    let norm_a := fsqrt (sumSquares a)
    let norm_b := fsqrt (sumSquares b)
    if norm_a = 0 ∨ norm_b = 0 then 0
    else dot / (norm_a * norm_b)

/-- `CachedHeuristic` (`lib.rs` lines 75–91). -/
structure CachedHeuristic where
  id : Uuid
  name : String
  condition : Json
  action : Json
  confidence : ℚ
  condition_embedding : List ℚ
  last_accessed_ms : ℤ
  cached_at_ms : ℤ
  hit_count : ℕ
  last_hit_ms : ℤ

/-- The part of `CacheConfig` the heuristic-cache operations read
(`max_events` / `novelty_threshold` only affect the event side, which the
claims do not touch). -/
structure CacheConfig where
  max_heuristics : ℕ
  heuristic_ttl_ms : ℤ

/-- `MemoryCache` (`lib.rs` lines 51–62), restricted to the heuristic map,
config and the hit/miss counters (the event map is untouched by the claims).
The list models `HashMap<Uuid, CachedHeuristic>`: list order stands for the
unspecified hash-map iteration order, and theorems quantify over it. -/
structure MemoryCache where
  heuristics : List CachedHeuristic
  config : CacheConfig
  total_hits : ℕ
  total_misses : ℕ

/-- The spec's expiry predicate: a heuristic is expired iff
`heuristic_ttl_ms > 0` and `now - cached_at_ms ≥ heuristic_ttl_ms`. -/
def expiredAt (ttl now : ℤ) (h : CachedHeuristic) : Prop :=
  0 < ttl ∧ ttl ≤ now - h.cached_at_ms

instance (ttl now : ℤ) (h : CachedHeuristic) : Decidable (expiredAt ttl now h) := by
  unfold expiredAt; infer_instance

/-- `MemoryCache::get_heuristic` (`lib.rs` lines 224–226): plain map lookup,
no TTL check, no LRU update. -/
def MemoryCache.get_heuristic (c : MemoryCache) (id : Uuid) : Option CachedHeuristic :=
  c.heuristics.find? (fun h => h.id == id)

/-- `HashMap::insert` on the id key: replace in place when the id is present,
otherwise add. -/
def insert_heuristic (h : CachedHeuristic) : List CachedHeuristic → List CachedHeuristic
  | [] => [h]
  | x :: t => if x.id = h.id then h :: t else x :: insert_heuristic h t

/-- `self.heuristics.values().min_by_key(|h| h.last_accessed_ms)`
(`lib.rs` lines 198–202): first minimum in iteration order. -/
def min_by_last_accessed : List CachedHeuristic → Option CachedHeuristic
  | [] => none
  | x :: t =>
    match min_by_last_accessed t with
    | none => some x
    | some m => if x.last_accessed_ms ≤ m.last_accessed_ms then some x else some m

/-- `HashMap::remove` on the id key. -/
def remove_first (id : Uuid) : List CachedHeuristic → List CachedHeuristic
  | [] => []
  | x :: t => if x.id = id then t else x :: remove_first id t

theorem min_by_last_accessed_mem :
    ∀ {hs : List CachedHeuristic} {m : CachedHeuristic},
      min_by_last_accessed hs = some m → m ∈ hs := by
  intro hs
  induction hs with
  | nil => intro m hm; simp [min_by_last_accessed] at hm
  | cons x t ih =>
    intro m hm
    simp only [min_by_last_accessed] at hm
    cases ht : min_by_last_accessed t with
    | none => rw [ht] at hm; simp at hm; simp [hm]
    | some m' =>
      rw [ht] at hm
      by_cases hle : x.last_accessed_ms ≤ m'.last_accessed_ms
      · simp [hle] at hm; simp [hm]
      · simp [hle] at hm
        exact List.mem_cons_of_mem x (hm ▸ ih ht)

theorem remove_first_length_lt {id : Uuid} {hs : List CachedHeuristic}
    (hx : ∃ x ∈ hs, x.id = id) : (remove_first id hs).length < hs.length := by
  induction hs with
  | nil => simp at hx
  | cons x t ih =>
    by_cases hid : x.id = id
    · simp [remove_first, hid]
    · simp only [remove_first, hid, if_false, List.length_cons]
      have : ∃ y ∈ t, y.id = id := by
        obtain ⟨y, hy, hyid⟩ := hx
        rcases List.mem_cons.mp hy with h | h
        · exact absurd (h ▸ hyid) hid
        · exact ⟨y, h, hyid⟩
      exact Nat.add_lt_add_right (ih this) 1

/-- The eviction loop of `add_heuristic` (`lib.rs` lines 196–208):
`while len ≥ max { remove the least-recently-accessed entry, or break when
the map is empty }`. -/
def evict_loop (maxH : ℕ) (hs : List CachedHeuristic) : List CachedHeuristic :=
  if hge : maxH ≤ hs.length then
    match hmin : min_by_last_accessed hs with
    | none => hs
    | some m => evict_loop maxH (remove_first m.id hs)
  else hs
termination_by hs.length
decreasing_by
  exact remove_first_length_lt ⟨m, min_by_last_accessed_mem hmin, rfl⟩

/-- The first two statements of `MemoryCache::add_heuristic`
(`lib.rs` lines 183–193): each timestamp is defaulted to `now` only when the
incoming heuristic carries 0 in it. -/
def adjust_timestamps (now : ℤ) (h : CachedHeuristic) : CachedHeuristic :=
  let h1 := if h.last_accessed_ms = 0 then { h with last_accessed_ms := now } else h
  if h1.cached_at_ms = 0 then { h1 with cached_at_ms := now } else h1

/-- `MemoryCache::add_heuristic` (`lib.rs` lines 182–211): default the two
timestamps to `now` when they are 0, evict while at capacity, then insert. -/
def MemoryCache.add_heuristic (c : MemoryCache) (now : ℤ) (h : CachedHeuristic) : MemoryCache :=
  { c with heuristics :=
      insert_heuristic (adjust_timestamps now h) (evict_loop c.config.max_heuristics c.heuristics) }

/-- `MemoryCache::touch_heuristic` (`lib.rs` lines 214–221). -/
def MemoryCache.touch_heuristic (c : MemoryCache) (now : ℤ) (id : Uuid) : MemoryCache :=
  { c with heuristics := c.heuristics.map (fun h =>
      if h.id = id then
        { h with last_accessed_ms := now, last_hit_ms := now, hit_count := h.hit_count + 1 }
      else h) }

/-- `MemoryCache::record_hit` (`lib.rs` lines 171–173). -/
def MemoryCache.record_hit (c : MemoryCache) : MemoryCache :=
  { c with total_hits := c.total_hits + 1 }

/-- `MemoryCache::record_miss` (`lib.rs` lines 176–178). -/
def MemoryCache.record_miss (c : MemoryCache) : MemoryCache :=
  { c with total_misses := c.total_misses + 1 }

/-- `MemoryCache::list_heuristics` (`lib.rs` lines 241–249): stable sort by
`-last_accessed_ms` (most recent first), truncate when `limit > 0`.
There is no TTL filter in the source. -/
def MemoryCache.list_heuristics (c : MemoryCache) (limit : ℕ) : List CachedHeuristic :=
  let sorted := c.heuristics.mergeSort (fun a b => decide (b.last_accessed_ms ≤ a.last_accessed_ms))
  if 0 < limit then sorted.take limit else sorted

/-- `MemoryCache::get_heuristics_by_confidence` (`lib.rs` lines 253–264):
keep entries with `confidence ≥ min` that have not expired. -/
def MemoryCache.get_heuristics_by_confidence (c : MemoryCache) (now : ℤ)
    (min_confidence : ℚ) : List CachedHeuristic :=
  let ttl := c.config.heuristic_ttl_ms
  c.heuristics.filter (fun h =>
    decide (min_confidence ≤ h.confidence) &&
      (decide (ttl ≤ 0) || decide (now - h.cached_at_ms < ttl)))

/-- `MemoryCache::find_matching_heuristics` (`lib.rs` lines 270–315):
empty-query short-circuit; filter out expired, low-confidence and
empty-embedding entries; keep cosine scores `≥ min_similarity`; stable sort
descending by similarity; truncate when `0 < limit < len`. -/
def MemoryCache.find_matching_heuristics (c : MemoryCache) (fsqrt : ℚ → ℚ) (now : ℤ)
    (query_embedding : List ℚ) (min_similarity min_confidence : ℚ) (limit : ℕ) :
    List (Uuid × ℚ) :=
  if query_embedding.isEmpty then []
  else
    let ttl := c.config.heuristic_ttl_ms
    let filtered := c.heuristics.filter (fun h =>
      !(decide (0 < ttl) && decide (ttl ≤ now - h.cached_at_ms)) &&
      !(decide (h.confidence < min_confidence)) &&
      !h.condition_embedding.isEmpty)
    let scored := filtered.filterMap (fun h =>
      let sim := cosine_similarity fsqrt query_embedding h.condition_embedding
      if min_similarity ≤ sim then some (h.id, sim) else none)
    let sorted := scored.mergeSort (fun a b => decide (b.2 ≤ a.2))
    if 0 < limit ∧ limit < sorted.length then sorted.take limit else sorted

/-- `ScoredMatch` (declared in the crate root; shape per the spec §4.3 and its
construction sites in `server.rs`). -/
structure ScoredMatch where
  heuristic_id : String
  similarity : ℚ
  confidence : ℚ
  condition_text : String
  suggested_action : String
  salience_boost : Option Json

/-- Modelled from the spec: `ScoringError` with its `StorageError` variant
(§4.3 step 5, §7); the enum's declaration is not among the source files, only
its construction in `server.rs` line 228. -/
inductive ScoringError where
  | StorageError (msg : String)

/-- Modelled from the spec: `e.to_string()` of a `ScoringError::StorageError`
surfaces the storage error message in the response's `error` field (§7). -/
def ScoringError.render : ScoringError → String
  | .StorageError msg => msg

/-- Materialisation of a cache hit into a `ScoredMatch`
(`server.rs` lines 205–212). -/
def mk_cache_match (h : CachedHeuristic) (sim : ℚ) : ScoredMatch :=
  { heuristic_id := uuid_to_string h.id
    similarity := sim
    confidence := h.confidence
    condition_text := ((h.condition.get "text").bind Json.as_str).getD ""
    suggested_action := ((h.action.get "message").bind Json.as_str).getD ""
    salience_boost := h.action.get "salience" }

/-- Materialisation of a storage-fallback heuristic into a `ScoredMatch`
(`server.rs` lines 238–245): `similarity = 1.0` sentinel. -/
def mk_storage_match (h : CachedHeuristic) : ScoredMatch :=
  { heuristic_id := uuid_to_string h.id
    similarity := 1
    confidence := h.confidence
    condition_text := ((h.condition.get "text").bind Json.as_str).getD ""
    suggested_action := ((h.action.get "message").bind Json.as_str).getD ""
    salience_boost := h.action.get "salience" }

/-- Shallow embedding of `EmbeddingSimilarityScorer::score`
(`server.rs` lines 178–246).  The two storage calls are suspension points;
their outcomes enter as the `Except`-valued arguments `embedding_result`
(`generate_embedding`) and `query_result` (`query_matching_heuristics`).
Returns the scored matches together with the cache as left after warming. -/
def score (fsqrt : ℚ → ℚ) (min_similarity min_confidence : ℚ)
    (cache : MemoryCache) (now : ℤ) (event_text : String)
    (embedding_result : Except String (List ℚ))
    (query_result : Except String (List CachedHeuristic)) :
    Except ScoringError (List ScoredMatch × MemoryCache) :=
  if event_text = "" then .ok ([], cache)
  else
    let cache_path : Option (List ScoredMatch) :=
      match embedding_result with
      | .ok embedding =>
        let cache_matches :=
          cache.find_matching_heuristics fsqrt now embedding min_similarity min_confidence 5
        if cache_matches.isEmpty then none
        else some (cache_matches.filterMap (fun p =>
          (cache.get_heuristic p.1).map (fun h => mk_cache_match h p.2)))
      | .error _ => none
    match cache_path with
    | some results => .ok (results, cache)
    | none =>
      match query_result with
      | .error e => .error (.StorageError e)
      | .ok heuristics =>
        let cache1 := if heuristics.isEmpty then cache
          else heuristics.foldl (fun c h => c.add_heuristic now h) cache
        .ok (heuristics.map mk_storage_match, cache1)

/-- The part of `SalienceConfig` read by `evaluate_salience`. -/
structure SalienceConfig where
  baseline_novelty : ℚ
  unmatched_novelty_boost : ℚ

/-- `EvaluateSalienceResponse` (proto message built in `server.rs`). -/
structure EvaluateSalienceResponse where
  salience : Option SalienceVector
  from_cache : Bool
  matched_heuristic_id : String
  error : String
  novelty_detection_skipped : Bool

/-- Reification of the cache side effects `evaluate_salience` performs:
how many `record_miss` / `record_hit` calls and which ids were passed to
`touch_heuristic`, in order. -/
structure Bookkeeping where
  record_miss_calls : ℕ
  record_hit_calls : ℕ
  touch_calls : List Uuid
deriving DecidableEq

/-- The initial salience vector of `evaluate_salience`
(`server.rs` lines 336–346): zeros except `novelty = baseline_novelty`. -/
def default_salience (cfg : SalienceConfig) : SalienceVector :=
  { threat := 0, opportunity := 0, humor := 0, novelty := cfg.baseline_novelty,
    goal_relevance := 0, social := 0, emotional := 0, actionability := 0, habituation := 0 }

/-- Shallow embedding of `SalienceService::evaluate_salience`
(`server.rs` lines 322–430).  The scorer call is a suspension point; its
outcome enters as `score_result`.  Returns the response together with the
reified cache bookkeeping. -/
def evaluate_salience (cfg : SalienceConfig) (raw_text : String)
    (score_result : Except ScoringError (List ScoredMatch)) :
    EvaluateSalienceResponse × Bookkeeping :=
  let salience := default_salience cfg
  if raw_text = "" then
    ({ salience := some salience, from_cache := false, matched_heuristic_id := "",
       error := "", novelty_detection_skipped := true }, ⟨0, 0, []⟩)
  else
    match score_result with
    | .ok [] =>
      let s := { salience with novelty := max salience.novelty cfg.unmatched_novelty_boost }
      ({ salience := some s, from_cache := false, matched_heuristic_id := "",
         error := "", novelty_detection_skipped := true }, ⟨0, 0, []⟩)
    | .ok (best :: _) =>
      let s := match best.salience_boost with
        | some boost => apply_salience_boost salience boost
        | none => salience
      let bk : Bookkeeping := match parse_uuid best.heuristic_id with
        | some id => if 1 ≤ best.similarity then ⟨1, 0, [id]⟩ else ⟨0, 1, [id]⟩
        | none => ⟨0, 0, []⟩
      ({ salience := some s, from_cache := true, matched_heuristic_id := best.heuristic_id,
         error := "", novelty_detection_skipped := true }, bk)
    | .error e =>
      let s := { salience with novelty := max salience.novelty cfg.unmatched_novelty_boost }
      ({ salience := some s, from_cache := false, matched_heuristic_id := "",
         error := e.render, novelty_detection_skipped := true }, ⟨0, 0, []⟩)

/-- Proto `Heuristic` message as consumed by
`GrpcStorageBackend::query_matching_heuristics` (fields read in
`server.rs` lines 89–116); `condition_embedding` is a raw byte string. -/
structure ProtoHeuristic where
  id : String
  name : String
  condition_text : String
  condition_embedding : List ℕ
  effects_json : String
  confidence : ℚ

/-- Proto `HeuristicMatch` message: optional heuristic plus similarity. -/
structure ProtoMatch where
  heuristic : Option ProtoHeuristic
  similarity : ℚ

/-- `bytes.chunks_exact(4)`: complete 4-byte words, remainder dropped. -/
def chunks_exact4 : List ℕ → List (ℕ × ℕ × ℕ × ℕ)
  | b0 :: b1 :: b2 :: b3 :: rest => (b0, b1, b2, b3) :: chunks_exact4 rest
  | _ => []

/-- `bytes_to_embedding` (`client.rs` lines 294–302): decode each complete
little-endian 4-byte word; `dec` abstracts `f32::from_le_bytes`.  Total —
a trailing 1–3 byte remainder is silently dropped by `chunks_exact`. -/
def bytes_to_embedding (dec : ℕ → ℕ → ℕ → ℕ → ℚ) (bytes : List ℕ) : List ℚ :=
  (chunks_exact4 bytes).map (fun c => dec c.1 c.2.1 c.2.2.1 c.2.2.2)

/-- Per-entry processing of one storage match inside
`GrpcStorageBackend::query_matching_heuristics` (`server.rs` lines 83–122):
skip when the heuristic field is missing or its id is not a UUID; a
malformed `effects_json` is replaced by `json!({})`; the embedding bytes are
decoded (never a skip).  `jp` abstracts `serde_json::from_str`. -/
def process_match (jp : String → Option Json) (dec : ℕ → ℕ → ℕ → ℕ → ℚ)
    (m : ProtoMatch) : Option CachedHeuristic :=
  match m.heuristic with
  | none => none
  | some h =>
    match parse_uuid h.id with
    | none => none
    | some id =>
      let condition := Json.obj [("text", Json.str h.condition_text)]
      let action := match jp h.effects_json with
        | some v => v
        | none => Json.obj []
      let condition_embedding :=
        if ¬h.condition_embedding.isEmpty then bytes_to_embedding dec h.condition_embedding
        else []
      some { id := id, name := h.name, condition := condition, action := action,
             confidence := h.confidence, condition_embedding := condition_embedding,
             last_accessed_ms := 0, cached_at_ms := 0, hit_count := 0, last_hit_ms := 0 }

/-- The `Ok(matches)` arm of `GrpcStorageBackend::query_matching_heuristics`
(`server.rs` lines 79–125): filter-map every entry through `process_match`
and return `Ok` of the survivors. -/
def grpc_query_matching_heuristics (jp : String → Option Json)
    (dec : ℕ → ℕ → ℕ → ℕ → ℚ) (response_matches : List ProtoMatch) :
    Except String (List CachedHeuristic) :=
  .ok (response_matches.filterMap (process_match jp dec))

/-! ## C1 — salience-boost merge -/

/-- A boost object carrying only a numeric `habituation` value. -/
def c1_boost : Json := Json.obj [("habituation", Json.num 1)]

/-- The all-zero salience vector. -/
def c1_vec : SalienceVector :=
  { threat := 0, opportunity := 0, humor := 0, novelty := 0, goal_relevance := 0,
    social := 0, emotional := 0, actionability := 0, habituation := 0 }

/-- C1 is false as stated: the boost carries the numeric value 1 under
`habituation` (one of the nine SalienceVector field names), yet
`apply_salience_boost` leaves the field at 0 instead of `max 0 1 = 1` —
the source has no `habituation` block. -/
theorem C1_counterexample :
    boostVal c1_boost "habituation" = some 1 ∧
    (apply_salience_boost c1_vec c1_boost).habituation = 0 ∧
    max c1_vec.habituation (1 : ℚ) = 1 := by
  refine ⟨rfl, rfl, by norm_num [c1_vec]⟩

/-- C1 (amended): `apply_salience_boost` sets each of the EIGHT fields
`threat, opportunity, humor, novelty, goal_relevance, social, emotional,
actionability` to `max(current, boost)` whenever the boost carries a numeric
value under the field's name and leaves it unchanged otherwise; the ninth
field, `habituation`, is always left unchanged. -/
theorem C1_amended (s : SalienceVector) (b : Json) :
    apply_salience_boost s b =
      { threat := mergeField s.threat b "threat"
        opportunity := mergeField s.opportunity b "opportunity"
        humor := mergeField s.humor b "humor"
        novelty := mergeField s.novelty b "novelty"
        goal_relevance := mergeField s.goal_relevance b "goal_relevance"
        social := mergeField s.social b "social"
        emotional := mergeField s.emotional b "emotional"
        actionability := mergeField s.actionability b "actionability"
        habituation := s.habituation } := by
  unfold apply_salience_boost mergeField boostVal
  cases h1 : (Json.get b "threat").bind Json.as_f64 <;>
  cases h2 : (Json.get b "opportunity").bind Json.as_f64 <;>
  cases h3 : (Json.get b "humor").bind Json.as_f64 <;>
  cases h4 : (Json.get b "novelty").bind Json.as_f64 <;>
  cases h5 : (Json.get b "goal_relevance").bind Json.as_f64 <;>
  cases h6 : (Json.get b "social").bind Json.as_f64 <;>
  cases h7 : (Json.get b "emotional").bind Json.as_f64 <;>
  cases h8 : (Json.get b "actionability").bind Json.as_f64 <;>
  rfl

/-! ## Cache-operation helper lemmas -/

theorem min_by_last_accessed_eq_none {hs : List CachedHeuristic}
    (h : min_by_last_accessed hs = none) : hs = [] := by
  cases hs with
  | nil => rfl
  | cons x t =>
    exfalso
    simp only [min_by_last_accessed] at h
    cases ht : min_by_last_accessed t with
    | none => rw [ht] at h; simp at h
    | some m =>
      rw [ht] at h
      by_cases hle : x.last_accessed_ms ≤ m.last_accessed_ms <;> simp [hle] at h

theorem insert_heuristic_length (h : CachedHeuristic) (l : List CachedHeuristic) :
    (insert_heuristic h l).length ≤ l.length + 1 := by
  induction l with
  | nil => simp [insert_heuristic]
  | cons x t ih =>
    by_cases hid : x.id = h.id <;> simp [insert_heuristic, hid] <;> omega

theorem find_insert (h : CachedHeuristic) (l : List CachedHeuristic) :
    (insert_heuristic h l).find? (fun x => x.id == h.id) = some h := by
  induction l with
  | nil => simp [insert_heuristic, List.find?]
  | cons x t ih =>
    by_cases hid : x.id = h.id
    · simp [insert_heuristic, hid, List.find?]
    · simp only [insert_heuristic, hid, if_false]
      rw [List.find?_cons_of_neg _ (by simp [hid])]
      exact ih

theorem find_insert_of_id (h : CachedHeuristic) (l : List CachedHeuristic) (id : Uuid)
    (hid : h.id = id) :
    (insert_heuristic h l).find? (fun x => x.id == id) = some h := by
  subst hid; exact find_insert h l

theorem adjust_timestamps_id (now : ℤ) (h : CachedHeuristic) :
    (adjust_timestamps now h).id = h.id := by
  simp only [adjust_timestamps]
  split <;> split <;> rfl

theorem evict_loop_of_lt {maxH : ℕ} {hs : List CachedHeuristic}
    (hlt : hs.length < maxH) : evict_loop maxH hs = hs := by
  rw [evict_loop]
  simp [Nat.not_le.mpr hlt]

theorem evict_loop_length (maxH : ℕ) (hs : List CachedHeuristic) :
    (evict_loop maxH hs).length < maxH ∨ evict_loop maxH hs = [] := by
  generalize hn : hs.length = n
  induction n using Nat.strong_induction_on generalizing hs with
  | _ n ih =>
    subst hn
    rw [evict_loop]
    split
    · split
      · rename_i hmin
        right
        exact min_by_last_accessed_eq_none hmin
      · rename_i m hmin
        exact ih _ (remove_first_length_lt ⟨m, min_by_last_accessed_mem hmin, rfl⟩) _ rfl
    · rename_i hge
      left
      omega

/-! ## C7 — add_heuristic replacement semantics -/

/-- A heuristic already resident in the cache under id 1. -/
def c7_old : CachedHeuristic :=
  { id := 1, name := "old", condition := Json.obj [], action := Json.obj [],
    confidence := 1, condition_embedding := [], last_accessed_ms := 3,
    cached_at_ms := 3, hit_count := 0, last_hit_ms := 0 }

/-- A replacement heuristic with the same id carrying the non-zero timestamps
`cached_at_ms = 5`, `last_accessed_ms = 7`. -/
def c7_new : CachedHeuristic :=
  { id := 1, name := "new", condition := Json.obj [], action := Json.obj [],
    confidence := 1, condition_embedding := [], last_accessed_ms := 7,
    cached_at_ms := 5, hit_count := 0, last_hit_ms := 0 }

/-- A cache whose only entry is `c7_old`. -/
def c7_cache : MemoryCache :=
  { heuristics := [c7_old], config := { max_heuristics := 50, heuristic_ttl_ms := 0 },
    total_hits := 0, total_misses := 0 }

/-- C7 is false as stated: adding `c7_new` (same id as the resident entry) at
time 1000 stores `cached_at_ms = 5` and `last_accessed_ms = 7` — the
timestamps carried by the incoming heuristic — not 1000, because
`add_heuristic` defaults a timestamp to now only when it is 0. -/
theorem C7_counterexample :
    ((c7_cache.add_heuristic 1000 c7_new).get_heuristic 1).map
        (fun x => (x.cached_at_ms, x.last_accessed_ms)) = some (5, 7) ∧
      ((5 : ℤ), (7 : ℤ)) ≠ ((1000 : ℤ), (1000 : ℤ)) := by
  constructor
  · have he : evict_loop (50 : ℕ) [c7_old] = [c7_old] := evict_loop_of_lt (by norm_num)
    have hstep : c7_cache.add_heuristic 1000 c7_new =
        { c7_cache with heuristics := insert_heuristic (adjust_timestamps 1000 c7_new) [c7_old] } := by
      unfold MemoryCache.add_heuristic
      rw [show c7_cache.config.max_heuristics = 50 from rfl,
        show c7_cache.heuristics = [c7_old] from rfl, he]
    rw [hstep]
    rfl
  · decide

/-- C7 (amended): `add_heuristic(h)` replaces the stored entry by id, but the
stored timestamps are those carried by `h`, each defaulted to the current
time only when `h` carries 0 in that field (not reset unconditionally). -/
theorem C7_amended (c : MemoryCache) (now : ℤ) (h : CachedHeuristic) :
    (c.add_heuristic now h).get_heuristic h.id = some (adjust_timestamps now h) ∧
    adjust_timestamps now h =
      { h with
        last_accessed_ms := if h.last_accessed_ms = 0 then now else h.last_accessed_ms,
        cached_at_ms := if h.cached_at_ms = 0 then now else h.cached_at_ms } := by
  constructor
  · exact find_insert_of_id _ _ _ (adjust_timestamps_id now h)
  · simp only [adjust_timestamps]
    by_cases hla : h.last_accessed_ms = 0 <;> by_cases hca : h.cached_at_ms = 0 <;>
      simp [hla, hca]

theorem evict_loop_step {maxH : ℕ} {hs : List CachedHeuristic} {m : CachedHeuristic}
    (hge : maxH ≤ hs.length) (hmin : min_by_last_accessed hs = some m) :
    evict_loop maxH hs = evict_loop maxH (remove_first m.id hs) := by
  conv_lhs => rw [evict_loop]
  rw [dif_pos hge]
  split
  · rename_i heq
    rw [hmin] at heq
    cases heq
  · rename_i m' heq
    rw [hmin] at heq
    cases heq
    rfl

/-! ## C10 — LRU eviction in add_heuristic -/

/-- A heuristic to add to a zero-capacity cache. -/
def c10_h : CachedHeuristic :=
  { id := 2, name := "h", condition := Json.obj [], action := Json.obj [],
    confidence := 1, condition_embedding := [], last_accessed_ms := 4,
    cached_at_ms := 4, hit_count := 0, last_hit_ms := 0 }

/-- An empty cache configured with `max_heuristics = 0`. -/
def c10_cache0 : MemoryCache :=
  { heuristics := [], config := { max_heuristics := 0, heuristic_ttl_ms := 0 },
    total_hits := 0, total_misses := 0 }

/-- C10 is false as stated in its final consequence: with
`max_heuristics = 0` the eviction loop breaks on the empty map and the insert
still happens, so after `add_heuristic` the heuristic count is 1, which
exceeds `max_heuristics = 0`. -/
theorem C10_counterexample :
    (c10_cache0.add_heuristic 9 c10_h).heuristics.length = 1 ∧
      c10_cache0.config.max_heuristics = 0 := by
  constructor
  · have he : evict_loop (0 : ℕ) ([] : List CachedHeuristic) = [] := by
      rw [evict_loop]
      simp [min_by_last_accessed]
    have hstep : c10_cache0.add_heuristic 9 c10_h =
        { c10_cache0 with heuristics := insert_heuristic (adjust_timestamps 9 c10_h) [] } := by
      unfold MemoryCache.add_heuristic
      rw [show c10_cache0.config.max_heuristics = 0 from rfl,
        show c10_cache0.heuristics = [] from rfl, he]
    rw [hstep]
    rfl
  · rfl

/-- The least-recently-accessed resident entry (id 1, `last_accessed_ms` 10). -/
def c10_a : CachedHeuristic :=
  { id := 1, name := "a", condition := Json.obj [], action := Json.obj [],
    confidence := 1, condition_embedding := [], last_accessed_ms := 10,
    cached_at_ms := 10, hit_count := 0, last_hit_ms := 0 }

/-- The more recently accessed resident entry (id 2, `last_accessed_ms` 20). -/
def c10_b : CachedHeuristic :=
  { id := 2, name := "b", condition := Json.obj [], action := Json.obj [],
    confidence := 1, condition_embedding := [], last_accessed_ms := 20,
    cached_at_ms := 20, hit_count := 0, last_hit_ms := 0 }

/-- A replacement for id 2 carrying fresh non-zero timestamps. -/
def c10_b2 : CachedHeuristic :=
  { id := 2, name := "b2", condition := Json.obj [], action := Json.obj [],
    confidence := 1, condition_embedding := [], last_accessed_ms := 30,
    cached_at_ms := 30, hit_count := 0, last_hit_ms := 0 }

/-- A full cache (`max_heuristics = 2`) holding ids 1 and 2. -/
def c10_full : MemoryCache :=
  { heuristics := [c10_a, c10_b], config := { max_heuristics := 2, heuristic_ttl_ms := 0 },
    total_hits := 0, total_misses := 0 }

/-- C10 (amended): `add_heuristic` evicts before inserting, so (first
conjunct) the heuristic count after every `add_heuristic` is at most
`max(max_heuristics, 1)` — the bound `max_heuristics` itself holds whenever
`max_heuristics > 0` but fails at `max_heuristics = 0`; and (second conjunct)
replacing id 2 in a full two-entry cache evicts the least-recently-accessed
entry id 1 even though id 2 is the id being replaced. -/
theorem C10_amended :
    (∀ (c : MemoryCache) (now : ℤ) (h : CachedHeuristic),
        (c.add_heuristic now h).heuristics.length ≤ max c.config.max_heuristics 1) ∧
    ((c10_full.add_heuristic 1000 c10_b2).get_heuristic 1 = none ∧
      (c10_full.get_heuristic 1).isSome = true ∧
      ((c10_full.add_heuristic 1000 c10_b2).get_heuristic 2).isSome = true ∧
      c10_full.heuristics.length = c10_full.config.max_heuristics) := by
  constructor
  · intro c now h
    unfold MemoryCache.add_heuristic
    rcases evict_loop_length c.config.max_heuristics c.heuristics with hlt | hnil
    · have h1 := insert_heuristic_length (adjust_timestamps now h)
        (evict_loop c.config.max_heuristics c.heuristics)
      have h2 := le_max_left c.config.max_heuristics 1
      simp only [List.length_cons]
      omega
    · rw [hnil]
      have h2 := le_max_right c.config.max_heuristics 1
      simp only [insert_heuristic, List.length_cons, List.length_nil]
      omega
  · have hmin : min_by_last_accessed [c10_a, c10_b] = some c10_a := by
      simp [min_by_last_accessed, c10_a, c10_b]
    have hrm : remove_first c10_a.id [c10_a, c10_b] = [c10_b] := by
      simp [remove_first]
    have he : evict_loop (2 : ℕ) [c10_a, c10_b] = [c10_b] := by
      rw [evict_loop_step (by norm_num) hmin, hrm]
      exact evict_loop_of_lt (by norm_num)
    have hstep : c10_full.add_heuristic 1000 c10_b2 =
        { c10_full with heuristics := insert_heuristic (adjust_timestamps 1000 c10_b2) [c10_b] } := by
      unfold MemoryCache.add_heuristic
      rw [show c10_full.config.max_heuristics = 2 from rfl,
        show c10_full.heuristics = [c10_a, c10_b] from rfl, he]
    refine ⟨?_, rfl, ?_, rfl⟩
    · rw [hstep]; rfl
    · rw [hstep]; rfl

/-! ## C5 — TTL expiry and lookup visibility -/

theorem find_matching_mem {c : MemoryCache} {fsqrt : ℚ → ℚ} {now : ℤ}
    {q : List ℚ} {msim mconf : ℚ} {limit : ℕ} {p : Uuid × ℚ}
    (hp : p ∈ c.find_matching_heuristics fsqrt now q msim mconf limit) :
    ∃ h ∈ c.heuristics,
      h.id = p.1 ∧
      p.2 = cosine_similarity fsqrt q h.condition_embedding ∧
      ¬ expiredAt c.config.heuristic_ttl_ms now h ∧
      mconf ≤ h.confidence ∧
      h.condition_embedding ≠ [] ∧
      msim ≤ p.2 := by
  simp only [MemoryCache.find_matching_heuristics] at hp
  by_cases hq : q.isEmpty
  · simp [hq] at hp
  · rw [if_neg (by simp [hq])] at hp
    have hp1 : p ∈ (c.heuristics.filter (fun h =>
        !(decide (0 < c.config.heuristic_ttl_ms) &&
            decide (c.config.heuristic_ttl_ms ≤ now - h.cached_at_ms)) &&
        !(decide (h.confidence < mconf)) &&
        !h.condition_embedding.isEmpty)).filterMap (fun h =>
          if msim ≤ cosine_similarity fsqrt q h.condition_embedding then
            some (h.id, cosine_similarity fsqrt q h.condition_embedding)
          else none) := by
      rw [← @List.mem_mergeSort _ (fun a b => decide (b.2 ≤ a.2)) p _]
      split at hp
      · exact List.take_subset _ _ hp
      · exact hp
    rw [List.mem_filterMap] at hp1
    obtain ⟨h, hh, hfm⟩ := hp1
    rw [List.mem_filter] at hh
    obtain ⟨hmem, hcond⟩ := hh
    simp only [Bool.and_eq_true, Bool.not_eq_true', Bool.and_eq_false_iff,
      decide_eq_false_iff_not, decide_eq_true_eq, List.isEmpty_eq_false,
      List.isEmpty_iff] at hcond
    split at hfm
    · rename_i hsim
      cases hfm
      refine ⟨h, hmem, rfl, rfl, ?_, ?_, ?_, hsim⟩
      · intro hexp
        rcases hcond.1.1 with hb | hb
        · exact absurd (decide_eq_true hexp.1) (by simp [hb])
        · exact absurd (decide_eq_true hexp.2) (by simp [hb])
      · exact not_lt.mp hcond.1.2
      · exact hcond.2
    · cases hfm

/-- An entry that is expired at time 100 for `heuristic_ttl_ms = 10`
(`cached_at_ms = 0`, so `now - cached_at_ms = 100 ≥ 10`). -/
def c5_h : CachedHeuristic :=
  { id := 1, name := "expired", condition := Json.obj [], action := Json.obj [],
    confidence := 1, condition_embedding := [1], last_accessed_ms := 50,
    cached_at_ms := 0, hit_count := 0, last_hit_ms := 0 }

/-- A cache with TTL 10 ms whose only entry is the expired `c5_h`. -/
def c5_cache : MemoryCache :=
  { heuristics := [c5_h], config := { max_heuristics := 50, heuristic_ttl_ms := 10 },
    total_hits := 0, total_misses := 0 }

/-- C5 is false as stated: `c5_h` is expired at time 100, yet both
`get_heuristic` and `list_heuristics` still return it — those two lookups
perform no TTL filtering in the source. -/
theorem C5_counterexample :
    expiredAt c5_cache.config.heuristic_ttl_ms 100 c5_h ∧
    (c5_cache.get_heuristic 1).isSome = true ∧
    (c5_cache.list_heuristics 0).map (fun h => h.id) = [1] := by
  refine ⟨by decide, rfl, ?_⟩
  simp [MemoryCache.list_heuristics, c5_cache, List.mergeSort_singleton, c5_h]

/-- C5 (amended): with expiry defined as `heuristic_ttl_ms > 0 ∧
now - cached_at_ms ≥ heuristic_ttl_ms`, the lookups
`get_heuristics_by_confidence` and `find_matching_heuristics` never return an
expired heuristic (and do not remove it — they do not mutate the cache);
`get_heuristic` and `list_heuristics`, however, perform no TTL filtering and
can return expired entries. -/
theorem C5_amended (c : MemoryCache) (now : ℤ) (mconf msim : ℚ) (fsqrt : ℚ → ℚ)
    (q : List ℚ) (limit : ℕ) :
    (∀ h ∈ c.get_heuristics_by_confidence now mconf,
        ¬ expiredAt c.config.heuristic_ttl_ms now h) ∧
    (∀ p ∈ c.find_matching_heuristics fsqrt now q msim mconf limit,
        ∃ h ∈ c.heuristics, h.id = p.1 ∧ ¬ expiredAt c.config.heuristic_ttl_ms now h) := by
  constructor
  · intro h hmem
    simp only [MemoryCache.get_heuristics_by_confidence, List.mem_filter,
      Bool.and_eq_true, Bool.or_eq_true, decide_eq_true_eq] at hmem
    intro hexp
    obtain ⟨hexp1, hexp2⟩ := hexp
    rcases hmem.2.2 with hb | hb <;> omega
  · intro p hp
    obtain ⟨h, hmem, hid, _, hnexp, _⟩ := find_matching_mem hp
    exact ⟨h, hmem, hid, hnexp⟩

/-- A non-expired entry at time 100 for TTL 10 (`cached_at_ms = 95`). -/
def c5w_h : CachedHeuristic :=
  { id := 2, name := "fresh", condition := Json.obj [], action := Json.obj [],
    confidence := 1, condition_embedding := [1], last_accessed_ms := 95,
    cached_at_ms := 95, hit_count := 0, last_hit_ms := 0 }

/-- A cache with TTL 10 ms whose only entry is the fresh `c5w_h`. -/
def c5w_cache : MemoryCache :=
  { heuristics := [c5w_h], config := { max_heuristics := 50, heuristic_ttl_ms := 10 },
    total_hits := 0, total_misses := 0 }

/-- Witness for the amended C5 at a concrete input: the entry returned by
`get_heuristics_by_confidence` on `c5w_cache` at time 100 is not expired. -/
theorem C5_witness : ¬ expiredAt c5w_cache.config.heuristic_ttl_ms 100 c5w_h :=
  (C5_amended c5w_cache 100 0 0 ratSqrt [] 0).1 c5w_h
    (by rw [show c5w_cache.get_heuristics_by_confidence 100 0 = [c5w_h] from rfl]
        exact List.mem_singleton_self _)

/-! ## C6 — find_matching_heuristics characterisation -/

theorem filterMap_sim_eq (msim : ℚ) (sim : CachedHeuristic → ℚ)
    (l : List CachedHeuristic) :
    l.filterMap (fun h => if msim ≤ sim h then some (h.id, sim h) else none) =
      (l.filter (fun h => decide (msim ≤ sim h))).map (fun h => (h.id, sim h)) := by
  induction l with
  | nil => rfl
  | cons x xs ih => by_cases hx : msim ≤ sim x <;> simp [hx, ih]

theorem pairwise_desc_mergeSort (l : List (Uuid × ℚ)) (n : ℕ) :
    ((l.mergeSort (fun a b => decide (b.2 ≤ a.2))).take n).Pairwise
      (fun a b : Uuid × ℚ => b.2 ≤ a.2) ∧
    (l.mergeSort (fun a b => decide (b.2 ≤ a.2))).Pairwise
      (fun a b : Uuid × ℚ => b.2 ≤ a.2) := by
  have hsorted := @List.sorted_mergeSort (Uuid × ℚ)
    (fun a b : Uuid × ℚ => decide (b.2 ≤ a.2))
    (fun a b c hab hbc => by
      simp only [decide_eq_true_eq] at *
      exact le_trans hbc hab)
    (fun a b => by
      simp only [Bool.or_eq_true, decide_eq_true_eq]
      exact le_total b.2 a.2)
    l
  have hsorted' : (l.mergeSort (fun a b => decide (b.2 ≤ a.2))).Pairwise
      (fun a b : Uuid × ℚ => b.2 ≤ a.2) :=
    hsorted.imp (fun hab => of_decide_eq_true hab)
  exact ⟨List.Pairwise.sublist (List.take_sublist _ _) hsorted', hsorted'⟩

theorem not_expired_decide (ttl now : ℤ) (x : CachedHeuristic) :
    (!(decide (0 < ttl) && decide (ttl ≤ now - x.cached_at_ms))) =
      decide (¬ expiredAt ttl now x) := by
  by_cases hA : 0 < ttl <;> by_cases hB : ttl ≤ now - x.cached_at_ms
  · rw [decide_eq_true hA, decide_eq_true hB,
      decide_eq_false (fun hn : ¬ expiredAt ttl now x => hn ⟨hA, hB⟩)]
    rfl
  · rw [decide_eq_true hA, decide_eq_false hB,
      decide_eq_true (show ¬ expiredAt ttl now x from fun hexp => hB hexp.2)]
    rfl
  · rw [decide_eq_false hA, decide_eq_true hB,
      decide_eq_true (show ¬ expiredAt ttl now x from fun hexp => hA hexp.1)]
    rfl
  · rw [decide_eq_false hA, decide_eq_false hB,
      decide_eq_true (show ¬ expiredAt ttl now x from fun hexp => hA hexp.1)]
    rfl

theorem not_low_confidence_decide (mconf : ℚ) (x : CachedHeuristic) :
    (!(decide (x.confidence < mconf))) = decide (mconf ≤ x.confidence) := by
  by_cases hC : x.confidence < mconf
  · rw [decide_eq_true hC, decide_eq_false (not_le.mpr hC)]
    rfl
  · rw [decide_eq_false hC, decide_eq_true (not_lt.mp hC)]
    rfl

theorem not_isEmpty_decide (x : CachedHeuristic) :
    (!x.condition_embedding.isEmpty) = decide (x.condition_embedding ≠ []) := by
  rcases hD : x.condition_embedding with _ | ⟨y, ys⟩
  · rfl
  · rw [decide_eq_true (by simp : (y :: ys) ≠ [])]
    rfl

/-- The claim's own description of `find_matching_heuristics`, written from
the spec's words for the refinement comparison: exactly the `(id, cos)` pairs
of the non-expired heuristics with `confidence ≥ min_conf`, non-empty
`condition_embedding` and `cos ≥ min_sim`, sorted by similarity descending,
truncated to `limit` (`limit = 0` meaning all); empty query gives `[]`. -/
def find_matching_spec (c : MemoryCache) (fsqrt : ℚ → ℚ) (now : ℤ)
    (q : List ℚ) (msim mconf : ℚ) (limit : ℕ) : List (Uuid × ℚ) :=
  if q = [] then []
  else
    let eligible := c.heuristics.filter (fun h =>
      decide (¬ expiredAt c.config.heuristic_ttl_ms now h) &&
      decide (mconf ≤ h.confidence) &&
      decide (h.condition_embedding ≠ []) &&
      decide (msim ≤ cosine_similarity fsqrt q h.condition_embedding))
    let pairs := eligible.map (fun h => (h.id, cosine_similarity fsqrt q h.condition_embedding))
    let sorted := pairs.mergeSort (fun a b => decide (b.2 ≤ a.2))
    if limit = 0 then sorted else sorted.take limit

/-- C6: `find_matching_heuristics` returns exactly the `(id, cos)` pairs the
claim describes (non-expired, `confidence ≥ min_conf`, non-empty embedding,
`cos ≥ min_sim`), stably sorted by similarity descending and truncated to
`limit` with 0 meaning all, and the empty query yields the empty list; the
returned list is pairwise descending in similarity. -/
theorem C6_find_matching_correct (c : MemoryCache) (fsqrt : ℚ → ℚ) (now : ℤ)
    (q : List ℚ) (msim mconf : ℚ) (limit : ℕ) :
    c.find_matching_heuristics fsqrt now q msim mconf limit =
      find_matching_spec c fsqrt now q msim mconf limit ∧
    (c.find_matching_heuristics fsqrt now q msim mconf limit).Pairwise
      (fun a b : Uuid × ℚ => b.2 ≤ a.2) := by
  constructor
  · simp only [MemoryCache.find_matching_heuristics, find_matching_spec]
    by_cases hq : q = []
    · simp [hq]
    · rw [if_neg (fun hcon => hq (List.isEmpty_iff.mp hcon)), if_neg hq]
      rw [filterMap_sim_eq msim (fun h => cosine_similarity fsqrt q h.condition_embedding)]
      rw [List.filter_filter]
      have hpred : ∀ x ∈ c.heuristics,
          ((decide (msim ≤ cosine_similarity fsqrt q x.condition_embedding)) &&
            (!(decide (0 < c.config.heuristic_ttl_ms) &&
                decide (c.config.heuristic_ttl_ms ≤ now - x.cached_at_ms)) &&
              !(decide (x.confidence < mconf)) &&
              !x.condition_embedding.isEmpty)) =
          (decide (¬ expiredAt c.config.heuristic_ttl_ms now x) &&
            decide (mconf ≤ x.confidence) &&
            decide (x.condition_embedding ≠ []) &&
            decide (msim ≤ cosine_similarity fsqrt q x.condition_embedding)) := by
        intro x _
        rw [not_expired_decide, not_low_confidence_decide, not_isEmpty_decide]
        simp only [Bool.and_comm, Bool.and_assoc, Bool.and_left_comm]
      rw [List.filter_congr hpred]
      rcases Nat.eq_zero_or_pos limit with h0 | hpos
      · simp [h0]
      · have hne : limit ≠ 0 := Nat.pos_iff_ne_zero.mp hpos
        by_cases hlen : limit <
            (((c.heuristics.filter (fun h =>
                decide (¬ expiredAt c.config.heuristic_ttl_ms now h) &&
                decide (mconf ≤ h.confidence) &&
                decide (h.condition_embedding ≠ []) &&
                decide (msim ≤ cosine_similarity fsqrt q h.condition_embedding))).map
              (fun h => (h.id, cosine_similarity fsqrt q h.condition_embedding))).mergeSort
              (fun a b => decide (b.2 ≤ a.2))).length
        · simp [hlen, hpos, hne]
        · simp [hlen, hpos, hne, List.take_of_length_le (not_lt.mp hlen)]
  · simp only [MemoryCache.find_matching_heuristics]
    by_cases hq : q.isEmpty
    · simp [hq]
    · rw [if_neg (by simp [hq])]
      split
      · exact (pairwise_desc_mergeSort _ limit).1
      · exact (pairwise_desc_mergeSort _ 0).2

/-! ## Score-path lemmas (C2, C3) -/

theorem score_fallback_emb_failed (fsqrt : ℚ → ℚ) (msim mconf : ℚ)
    (cache : MemoryCache) (now : ℤ) (txt : String) (e : String)
    (hs : List CachedHeuristic) (htxt : txt ≠ "") :
    score fsqrt msim mconf cache now txt (.error e) (.ok hs) =
      .ok (hs.map mk_storage_match,
        if hs.isEmpty then cache
        else hs.foldl (fun c h => c.add_heuristic now h) cache) := by
  simp only [score, if_neg htxt]

theorem score_fallback_cache_empty (fsqrt : ℚ → ℚ) (msim mconf : ℚ)
    (cache : MemoryCache) (now : ℤ) (txt : String) (emb : List ℚ)
    (hs : List CachedHeuristic) (htxt : txt ≠ "")
    (hfm : cache.find_matching_heuristics fsqrt now emb msim mconf 5 = []) :
    score fsqrt msim mconf cache now txt (.ok emb) (.ok hs) =
      .ok (hs.map mk_storage_match,
        if hs.isEmpty then cache
        else hs.foldl (fun c h => c.add_heuristic now h) cache) := by
  simp only [score, if_neg htxt, hfm, List.isEmpty_nil, if_true]

theorem score_cache_path (fsqrt : ℚ → ℚ) (msim mconf : ℚ)
    (cache : MemoryCache) (now : ℤ) (txt : String) (emb : List ℚ)
    (qr : Except String (List CachedHeuristic)) (htxt : txt ≠ "")
    (hnem : cache.find_matching_heuristics fsqrt now emb msim mconf 5 ≠ []) :
    score fsqrt msim mconf cache now txt (.ok emb) qr =
      .ok ((cache.find_matching_heuristics fsqrt now emb msim mconf 5).filterMap
        (fun p => (cache.get_heuristic p.1).map (fun h => mk_cache_match h p.2)),
        cache) := by
  simp only [score, if_neg htxt, List.isEmpty_eq_false.mpr hnem, Bool.false_eq_true,
    if_false]

theorem score_storage_error_emb_failed (fsqrt : ℚ → ℚ) (msim mconf : ℚ)
    (cache : MemoryCache) (now : ℤ) (txt : String) (e1 e2 : String)
    (htxt : txt ≠ "") :
    score fsqrt msim mconf cache now txt (.error e1) (.error e2) =
      .error (.StorageError e2) := by
  simp only [score, if_neg htxt]

theorem score_storage_error_cache_empty (fsqrt : ℚ → ℚ) (msim mconf : ℚ)
    (cache : MemoryCache) (now : ℤ) (txt : String) (emb : List ℚ) (e2 : String)
    (htxt : txt ≠ "")
    (hfm : cache.find_matching_heuristics fsqrt now emb msim mconf 5 = []) :
    score fsqrt msim mconf cache now txt (.ok emb) (.error e2) =
      .error (.StorageError e2) := by
  simp only [score, if_neg htxt, hfm, List.isEmpty_nil, if_true]

/-! ## C2 — similarity sentinel semantics -/

/-- A cached heuristic whose 1-dimensional condition embedding `[1]` has unit
norm, so every step of the f32 cosine computation on it is exact. -/
def c2_h : CachedHeuristic :=
  { id := 7, name := "h", condition := Json.obj [("text", Json.str "t")],
    action := Json.obj [], confidence := 1, condition_embedding := [1],
    last_accessed_ms := 1, cached_at_ms := 1, hit_count := 0, last_hit_ms := 0 }

/-- A TTL-free cache holding only `c2_h`. -/
def c2_cache : MemoryCache :=
  { heuristics := [c2_h], config := { max_heuristics := 50, heuristic_ttl_ms := 0 },
    total_hits := 0, total_misses := 0 }

theorem c2_cos_self : cosine_similarity ratSqrt [1] [1] = 1 := by
  norm_num [cosine_similarity, dotList, sumSquares, ratSqrt, Nat.sqrt_one]

theorem c2_find : c2_cache.find_matching_heuristics ratSqrt 10 [1] 0 0 5 = [(7, 1)] := by
  simp [MemoryCache.find_matching_heuristics, c2_cache, c2_h, c2_cos_self,
    List.mergeSort_singleton]

/-- C2 is false as stated: with the query embedding equal to the cached unit
embedding `[1]`, the cache-lookup path of `score` produces a `ScoredMatch`
with similarity exactly 1.0 — the source has no clamp below 1.0.  At this
input every f32 operation involved (1·1, 1+0, sqrt 1, 1/1) is exact, so the
rational model returns exactly what the Rust code returns. -/
theorem C2_counterexample :
    score ratSqrt 0 0 c2_cache 10 "e" (.ok [1]) (.ok []) =
      .ok ([mk_cache_match c2_h 1], c2_cache) ∧
    (mk_cache_match c2_h 1).similarity = 1 := by
  constructor
  · rw [score_cache_path ratSqrt 0 0 c2_cache 10 "e" [1] (.ok []) (by decide)
      (by rw [c2_find]; exact List.cons_ne_nil _ _)]
    rw [c2_find]
    rfl
  · rfl

/-- C2 (amended): every `ScoredMatch` from the storage-fallback path has
similarity exactly 1.0; a `ScoredMatch` from the cache-lookup path carries
the cosine similarity computed by `find_matching_heuristics`, which is at
least `min_similarity` but is NOT clamped below 1.0 and can equal 1.0 on an
exact self-match. -/
theorem C2_amended (fsqrt : ℚ → ℚ) (msim mconf : ℚ) (cache : MemoryCache)
    (now : ℤ) (txt : String) (emb : List ℚ) (e : String)
    (hs : List CachedHeuristic) (htxt : txt ≠ "") :
    (∃ c1, score fsqrt msim mconf cache now txt (.error e) (.ok hs) =
        .ok (hs.map mk_storage_match, c1)) ∧
    (∀ m ∈ hs.map mk_storage_match, m.similarity = 1) ∧
    (cache.find_matching_heuristics fsqrt now emb msim mconf 5 = [] →
      ∃ c1, score fsqrt msim mconf cache now txt (.ok emb) (.ok hs) =
        .ok (hs.map mk_storage_match, c1)) ∧
    (cache.find_matching_heuristics fsqrt now emb msim mconf 5 ≠ [] →
      score fsqrt msim mconf cache now txt (.ok emb) (.ok hs) =
        .ok ((cache.find_matching_heuristics fsqrt now emb msim mconf 5).filterMap
          (fun p => (cache.get_heuristic p.1).map (fun h => mk_cache_match h p.2)),
          cache) ∧
      ∀ m ∈ (cache.find_matching_heuristics fsqrt now emb msim mconf 5).filterMap
          (fun p => (cache.get_heuristic p.1).map (fun h => mk_cache_match h p.2)),
        ∃ p ∈ cache.find_matching_heuristics fsqrt now emb msim mconf 5,
          m.similarity = p.2 ∧ msim ≤ m.similarity) := by
  refine ⟨⟨_, score_fallback_emb_failed fsqrt msim mconf cache now txt e hs htxt⟩,
    ?_, ?_, ?_⟩
  · intro m hm
    obtain ⟨h, _, rfl⟩ := List.mem_map.mp hm
    rfl
  · intro hfm
    exact ⟨_, score_fallback_cache_empty fsqrt msim mconf cache now txt emb hs htxt hfm⟩
  · intro hfm
    refine ⟨score_cache_path fsqrt msim mconf cache now txt emb (.ok hs) htxt hfm, ?_⟩
    intro m hm
    rw [List.mem_filterMap] at hm
    obtain ⟨p, hp, hmp⟩ := hm
    rcases hg : cache.get_heuristic p.1 with _ | h
    · rw [hg] at hmp
      cases hmp
    · rw [hg] at hmp
      cases hmp
      obtain ⟨h', hm', hid', hcos', hnexp', hconf', hne', hsim'⟩ := find_matching_mem hp
      exact ⟨p, hp, rfl, hsim'⟩

/-- Witness for the amended C2 at a concrete input: the storage-fallback
materialisation of `c2_h` carries similarity exactly 1. -/
theorem C2_witness : (mk_storage_match c2_h).similarity = 1 :=
  (C2_amended ratSqrt 0 0 c2_cache 10 "e" [1] "boom" [c2_h] (by decide)).2.1
    (mk_storage_match c2_h) (List.mem_map_of_mem _ (List.mem_singleton_self _))

/-! ## C3 — error propagation and the error response -/

theorem evaluate_salience_error (cfg : SalienceConfig) (txt : String)
    (err : ScoringError) (htxt : txt ≠ "") :
    evaluate_salience cfg txt (.error err) =
      ({ salience := some { default_salience cfg with
            novelty := max cfg.baseline_novelty cfg.unmatched_novelty_boost },
         from_cache := false, matched_heuristic_id := "", error := err.render,
         novelty_detection_skipped := true },
        { record_miss_calls := 0, record_hit_calls := 0, touch_calls := [] }) := by
  simp only [evaluate_salience, if_neg htxt]
  rfl

/-- C3: an embedding failure alone never propagates out of `score` (the
storage results come back as a success); a storage-query failure becomes
`ScoringError::StorageError` (whether the fallback was reached by embedding
failure or by an empty cache lookup); and on a scoring error
`evaluate_salience` returns a transport-level-success response whose `error`
field carries the (non-empty) storage message, with `from_cache = false`,
empty `matched_heuristic_id`, and `novelty = max(baseline_novelty,
unmatched_novelty_boost)`. -/
theorem C3_error_handling (fsqrt : ℚ → ℚ) (msim mconf : ℚ) (cache : MemoryCache)
    (now : ℤ) (txt : String) (emb : List ℚ) (e1 e2 : String)
    (hs : List CachedHeuristic) (cfg : SalienceConfig) (msg : String)
    (htxt : txt ≠ "") (hmsg : msg ≠ "") :
    (∃ c1, score fsqrt msim mconf cache now txt (.error e1) (.ok hs) =
        .ok (hs.map mk_storage_match, c1)) ∧
    (score fsqrt msim mconf cache now txt (.error e1) (.error e2) =
        .error (.StorageError e2)) ∧
    (cache.find_matching_heuristics fsqrt now emb msim mconf 5 = [] →
      score fsqrt msim mconf cache now txt (.ok emb) (.error e2) =
        .error (.StorageError e2)) ∧
    ((evaluate_salience cfg txt (.error (.StorageError msg))).1.error = msg ∧
      (evaluate_salience cfg txt (.error (.StorageError msg))).1.error ≠ "" ∧
      (evaluate_salience cfg txt (.error (.StorageError msg))).1.from_cache = false ∧
      (evaluate_salience cfg txt (.error (.StorageError msg))).1.matched_heuristic_id = "" ∧
      (evaluate_salience cfg txt (.error (.StorageError msg))).1.salience =
        some { default_salience cfg with
          novelty := max cfg.baseline_novelty cfg.unmatched_novelty_boost }) := by
  refine ⟨⟨_, score_fallback_emb_failed fsqrt msim mconf cache now txt e1 hs htxt⟩,
    score_storage_error_emb_failed fsqrt msim mconf cache now txt e1 e2 htxt,
    (fun hfm =>
      score_storage_error_cache_empty fsqrt msim mconf cache now txt emb e2 htxt hfm),
    ?_⟩
  rw [evaluate_salience_error cfg txt (.StorageError msg) htxt]
  exact ⟨rfl, hmsg, rfl, rfl, rfl⟩

/-- Witness for C3 at a concrete input: the error response's `error` field is
the storage message and is non-empty, and `from_cache` is false. -/
theorem C3_witness :
    (evaluate_salience { baseline_novelty := 0, unmatched_novelty_boost := 1 } "e"
        (.error (.StorageError "boom"))).1.error ≠ "" ∧
    (evaluate_salience { baseline_novelty := 0, unmatched_novelty_boost := 1 } "e"
        (.error (.StorageError "boom"))).1.from_cache = false := by
  have h := C3_error_handling ratSqrt 0 0
    { heuristics := [], config := { max_heuristics := 1, heuristic_ttl_ms := 0 },
      total_hits := 0, total_misses := 0 } 10 "e" [] "x" "y" []
    { baseline_novelty := 0, unmatched_novelty_boost := 1 } "boom"
    (by decide) (by decide)
  exact ⟨h.2.2.2.2.1, h.2.2.2.2.2.1⟩

/-! ## C9 — evaluate_salience bookkeeping -/

theorem evaluate_salience_match (cfg : SalienceConfig) (txt : String)
    (best : ScoredMatch) (rest : List ScoredMatch) (htxt : txt ≠ "") :
    evaluate_salience cfg txt (.ok (best :: rest)) =
      ({ salience := some (match best.salience_boost with
            | some boost => apply_salience_boost (default_salience cfg) boost
            | none => default_salience cfg),
         from_cache := true, matched_heuristic_id := best.heuristic_id, error := "",
         novelty_detection_skipped := true },
        match parse_uuid best.heuristic_id with
        | some id =>
          if 1 ≤ best.similarity then
            { record_miss_calls := 1, record_hit_calls := 0, touch_calls := [id] }
          else
            { record_miss_calls := 0, record_hit_calls := 1, touch_calls := [id] }
        | none => { record_miss_calls := 0, record_hit_calls := 0, touch_calls := [] }) := by
  simp only [evaluate_salience, if_neg htxt]

/-- A scored match whose heuristic id is not a parsable UUID. -/
def c9_match : ScoredMatch :=
  { heuristic_id := "zed", similarity := 0, confidence := 1,
    condition_text := "", suggested_action := "", salience_boost := none }

/-- C9 is false as stated: the scorer returned one match (with similarity
`0 < 1.0`, so the claim requires one `record_hit` and one `touch_heuristic`),
but because its `heuristic_id` does not parse as a UUID, `evaluate_salience`
performs no counter update and no touch at all. -/
theorem C9_counterexample :
    (evaluate_salience { baseline_novelty := 0, unmatched_novelty_boost := 1 } "e"
        (.ok [c9_match])).2 =
      { record_miss_calls := 0, record_hit_calls := 0, touch_calls := [] } ∧
    c9_match.similarity < 1 ∧ parse_uuid c9_match.heuristic_id = none := by
  refine ⟨rfl, by norm_num [c9_match], by decide⟩

/-- C9 (amended): when the scorer returns at least one match AND the winning
match's `heuristic_id` parses as a UUID, exactly one counter update happens
(`record_miss` when similarity ≥ 1.0 — the source tests `>= 1.0`, not
`== 1.0` — `record_hit` when similarity < 1.0) and exactly one
`touch_heuristic` with the winner's id; when the id does not parse, no
counter update and no touch occur. -/
theorem C9_amended (cfg : SalienceConfig) (txt : String) (best : ScoredMatch)
    (rest : List ScoredMatch) (id : Uuid) (htxt : txt ≠ "")
    (hid : parse_uuid best.heuristic_id = some id) :
    ((evaluate_salience cfg txt (.ok (best :: rest))).2.record_miss_calls +
      (evaluate_salience cfg txt (.ok (best :: rest))).2.record_hit_calls = 1) ∧
    (evaluate_salience cfg txt (.ok (best :: rest))).2.touch_calls = [id] ∧
    (1 ≤ best.similarity →
      (evaluate_salience cfg txt (.ok (best :: rest))).2.record_miss_calls = 1) ∧
    (best.similarity < 1 →
      (evaluate_salience cfg txt (.ok (best :: rest))).2.record_hit_calls = 1) := by
  rw [evaluate_salience_match cfg txt best rest htxt]
  rw [hid]
  by_cases hsim : 1 ≤ best.similarity
  · simp [hsim, not_lt.mpr hsim]
  · simp [hsim, not_le.mp hsim]

/-- A scored match with a parsable id ("37") and similarity 1. -/
def c9w_match : ScoredMatch :=
  { heuristic_id := "37", similarity := 1, confidence := 1,
    condition_text := "", suggested_action := "", salience_boost := none }

/-- Witness for the amended C9 at a concrete input: the single touch call
carries the parsed id 37. -/
theorem C9_witness :
    (evaluate_salience { baseline_novelty := 0, unmatched_novelty_boost := 1 } "e"
        (.ok [c9w_match])).2.touch_calls = [37] :=
  (C9_amended { baseline_novelty := 0, unmatched_novelty_boost := 1 } "e"
    c9w_match [] 37 (by decide) (by decide)).2.1

/-! ## C4 — storage-response per-entry handling -/

theorem chunks_exact4_length (l : List ℕ) : (chunks_exact4 l).length = l.length / 4 := by
  generalize hn : l.length = n
  induction n using Nat.strong_induction_on generalizing l with
  | _ n ih =>
    match l with
    | [] => subst hn; rw [show chunks_exact4 [] = [] from rfl]; simp
    | [a] => subst hn; rw [show chunks_exact4 [a] = [] from rfl]; simp
    | [a, b] => subst hn; rw [show chunks_exact4 [a, b] = [] from rfl]; simp
    | [a, b, c] => subst hn; rw [show chunks_exact4 [a, b, c] = [] from rfl]; simp
    | a :: b :: c :: d :: rest =>
      have hrest : rest.length < n := by
        simp only [List.length_cons] at hn
        omega
      have hr := ih rest.length hrest rest rfl
      subst hn
      rw [show chunks_exact4 (a :: b :: c :: d :: rest) =
        (a, b, c, d) :: chunks_exact4 rest from rfl]
      simp only [List.length_cons, hr]
      omega

theorem bytes_to_embedding_length (dec : ℕ → ℕ → ℕ → ℕ → ℚ) (bytes : List ℕ) :
    (bytes_to_embedding dec bytes).length = bytes.length / 4 := by
  simp [bytes_to_embedding, chunks_exact4_length]

/-- A storage entry with a valid (parsable) id, malformed effects JSON and a
3-byte embedding (not a multiple of 4). -/
def c4_ph : ProtoHeuristic :=
  { id := "3", name := "n", condition_text := "c", condition_embedding := [0, 0, 0],
    effects_json := "not json", confidence := 1 }

/-- The storage match wrapping `c4_ph`. -/
def c4_m : ProtoMatch := { heuristic := some c4_ph, similarity := 1 }

/-- C4 is false as stated: an entry whose action JSON is malformed (the
parser — instantiated here as the constant failure it exhibits on
`"not json"` — returns no value) and whose embedding bytes are malformed
(3 bytes) is NOT skipped: the result still contains it, with the empty
object as its action and an empty (truncated) embedding. -/
theorem C4_counterexample :
    (grpc_query_matching_heuristics (fun _ => none) (fun _ _ _ _ => 0) [c4_m]).toOption.map
        (fun l => l.map (fun h => (h.id, h.condition_embedding.length))) =
      some [(3, 0)] := rfl

/-- C4 (amended): processing a storage response never fails the whole
request (it always returns `Ok`); an entry is skipped exactly when its
heuristic field is missing or its id fails UUID parsing; an entry with a
parsable id is always kept — a malformed `effects_json` is replaced by the
empty JSON object and malformed embedding bytes are truncated to complete
4-byte words, never grounds for a skip. -/
theorem C4_amended (jp : String → Option Json) (dec : ℕ → ℕ → ℕ → ℕ → ℚ)
    (resp : List ProtoMatch) :
    (∃ l, grpc_query_matching_heuristics jp dec resp = .ok l ∧
        l = resp.filterMap (process_match jp dec)) ∧
    (∀ m : ProtoMatch, m.heuristic = none → process_match jp dec m = none) ∧
    (∀ (m : ProtoMatch) (h : ProtoHeuristic), m.heuristic = some h →
        parse_uuid h.id = none → process_match jp dec m = none) ∧
    (∀ (m : ProtoMatch) (h : ProtoHeuristic) (id : Uuid), m.heuristic = some h →
        parse_uuid h.id = some id →
        ∃ ch, process_match jp dec m = some ch ∧ ch.id = id ∧
          ch.action = (jp h.effects_json).getD (Json.obj []) ∧
          ch.condition_embedding.length = h.condition_embedding.length / 4) := by
  refine ⟨⟨_, rfl, rfl⟩, ?_, ?_, ?_⟩
  · intro m hm
    simp [process_match, hm]
  · intro m h hm hid
    simp [process_match, hm, hid]
  · intro m h id hm hid
    have hpm : process_match jp dec m = some
        { id := id, name := h.name,
          condition := Json.obj [("text", Json.str h.condition_text)],
          action := match jp h.effects_json with
            | some v => v
            | none => Json.obj [],
          confidence := h.confidence,
          condition_embedding :=
            if ¬h.condition_embedding.isEmpty then bytes_to_embedding dec h.condition_embedding
            else [],
          last_accessed_ms := 0, cached_at_ms := 0, hit_count := 0, last_hit_ms := 0 } := by
      simp only [process_match, hm, hid]
    refine ⟨_, hpm, rfl, ?_, ?_⟩
    · show (match jp h.effects_json with
        | some v => v
        | none => Json.obj []) = (jp h.effects_json).getD (Json.obj [])
      rcases hj : jp h.effects_json with _ | v <;> simp [hj]
    · show (if ¬h.condition_embedding.isEmpty then bytes_to_embedding dec h.condition_embedding
        else []).length = h.condition_embedding.length / 4
      by_cases hemb : h.condition_embedding.isEmpty
      · have hnil : h.condition_embedding = [] := List.isEmpty_iff.mp hemb
        simp [hemb, hnil]
      · simp [hemb, bytes_to_embedding_length]

/-- A storage entry with parsable id "5" and a 5-byte embedding. -/
def c4w_ph : ProtoHeuristic :=
  { id := "5", name := "n", condition_text := "c",
    condition_embedding := [1, 2, 3, 4, 5], effects_json := "x", confidence := 1 }

/-- Witness for the amended C4 at a concrete input: the entry with id "5" is
kept, with action defaulted and its 5 embedding bytes truncated to one word. -/
theorem C4_witness :
    ∃ ch, process_match (fun _ => none) (fun _ _ _ _ => 0)
        { heuristic := some c4w_ph, similarity := 1 } = some ch ∧
      ch.id = 5 ∧
      ch.action = ((fun _ => (none : Option Json)) c4w_ph.effects_json).getD (Json.obj []) ∧
      ch.condition_embedding.length = c4w_ph.condition_embedding.length / 4 :=
  (C4_amended (fun _ => none) (fun _ _ _ _ => 0) []).2.2.2
    { heuristic := some c4w_ph, similarity := 1 } c4w_ph 5 rfl (by decide)
